import Mathlib

/-
  Verification development for the metro-logs-mcp core:
  a CDP (Chrome DevTools Protocol) client that maintains WebSocket
  connections to a React Native runtime, correlates request/response
  pairs, ingests console/network/context events into bounded buffers,
  and reconnects with backoff.

  Shallow embedding of:
    - src/core/state.ts        (global buffers, pending executions, id counter)
    - src/core/connection.ts   (handleCDPMessage, connectToDevice close/error/
                                timeout handlers, scheduleReconnection,
                                getFirstConnectedApp, formatRemoteObject)
    - src/core/executor.ts     (validateAndPreprocessExpression,
                                executeExpressionCore)
  Parts of the repository not present under src (connectionState.ts,
  logs.ts, network.ts) are modelled from the spec where a claim needs
  them; each such definition carries a doc comment saying so.

  JavaScript strings are modelled as lists of UTF-16 code units
  (`List Nat`), since the expression validator inspects surrogate code
  units that Lean's `Char` cannot represent.  CDP timestamps (JS
  doubles counting seconds) are modelled as rationals.
-/

/-! ## Circular buffer (Log Buffer / Network Buffer backing store)

Modelled from the spec: `logs.ts` / `network.ts` are not under src/.
Spec §3 (CircularBuffer<T>): fixed capacity `N`; insertion-ordered; when
full, insertion evicts the oldest entry (FIFO). -/

/-- Modelled from the spec: CircularBuffer.add — appends the entry,
evicting the oldest entry when capacity `cap` is exceeded
(`logs.ts`/`network.ts` are not under src/). -/
def bufAdd (cap : Nat) (buf : List α) (e : α) : List α :=
  let b := buf ++ [e]
  if cap < b.length then b.drop 1 else b

/-- A whole sequence of `add` calls, oldest first. -/
def bufAddAll (cap : Nat) (buf : List α) (xs : List α) : List α :=
  xs.foldl (bufAdd cap) buf

/-! ## Pending request lifecycle (state.ts `pendingExecutions`, connection.ts
`handleCDPMessage` reply branch, executor.ts `executeExpressionCore` timeout)

Each `Runtime.evaluate` dispatch creates one `PendingRequest` under a fresh
monotone message id with a one-shot timeout; an inbound reply whose id matches
a pending entry clears the timeout, deletes the map entry and invokes the
completion callback; the timeout handler deletes the entry and invokes the
callback with a timeout failure.  The model records the map (`pendingIds`),
the set of still-armed one-shot timers (`activeTimers`), the ids ever created
(`created`), and each callback invocation split by cause. -/

structure PendingState where
  pendingIds : List Nat
  activeTimers : List Nat
  created : List Nat
  invokedByReply : List Nat
  invokedByTimeout : List Nat
deriving DecidableEq

inductive PendingEvent where
  /-- executor.ts 196: `pendingExecutions.set(currentMessageId, ...)` with a
  fresh id from `getNextMessageId` (ids are never reused, hence the guard). -/
  | create (id : Nat)
  /-- connection.ts 86-127: a reply frame whose numeric id matches a pending
  entry clears the timeout, deletes the entry and resolves; an unmatched id is
  ignored. -/
  | reply (id : Nat)
  /-- executor.ts 191-194: a (still armed, one-shot) timeout fires: the entry
  is deleted and the callback resolved with a timeout failure. -/
  | timerFire (id : Nat)
deriving DecidableEq

def pendingStep (s : PendingState) : PendingEvent → PendingState
  | .create id =>
    if id ∈ s.created then s
    else { s with pendingIds := s.pendingIds ++ [id],
                  activeTimers := s.activeTimers ++ [id],
                  created := s.created ++ [id] }
  | .reply id =>
    if id ∈ s.pendingIds then
      { s with pendingIds := s.pendingIds.erase id,
               activeTimers := s.activeTimers.erase id,
               invokedByReply := s.invokedByReply ++ [id] }
    else s
  | .timerFire id =>
    if id ∈ s.activeTimers then
      { s with pendingIds := s.pendingIds.erase id,
               activeTimers := s.activeTimers.erase id,
               invokedByTimeout := s.invokedByTimeout ++ [id] }
    else s

def pendingInit : PendingState := ⟨[], [], [], [], []⟩

def pendingRun (evs : List PendingEvent) : PendingState :=
  evs.foldl pendingStep pendingInit

/-- Total number of callback invocations recorded for `id`. -/
def invocations (s : PendingState) (id : Nat) : Nat :=
  s.invokedByReply.count id + s.invokedByTimeout.count id

/-- The inductive invariant: ids are created at most once, the map entry and
the armed timer coincide, and invocations plus the live entry account exactly
for the creations. -/
def PendingInv (s : PendingState) : Prop :=
  ∀ id : Nat,
    s.created.count id ≤ 1 ∧
    s.pendingIds.count id = s.activeTimers.count id ∧
    invocations s id + s.pendingIds.count id = s.created.count id

/-! ## Connection health and reconnection backoff (connection.ts
`ws.on("close")` handler and `scheduleReconnection`)

`connectionState.ts` is not under src/; its simple accessors
(`getConnectionState` / `updateConnectionState` merge-update of the per-key
record, `calculateBackoffDelay`, `recordConnectionGap`) are modelled from the
spec, while the decision logic embedded in `handleConnectionClose` /
`scheduleReconnection` is transcribed from connection.ts lines 433-466 and
513-540.  Times are milliseconds since the epoch. -/

structure ConnectionGap where
  openedAt : Nat
  reason : String
deriving DecidableEq

structure ConnState where
  status : String
  lastConnectedTime : Option Nat
  lastDisconnectTime : Option Nat
  reconnectionAttempts : Nat
  gaps : List ConnectionGap
deriving DecidableEq

structure ReconnectionConfig where
  enabled : Bool
  maxAttempts : Nat
deriving DecidableEq

/-- Modelled from the spec (§4.1): default reconnection configuration —
auto-reconnection enabled, capped at 8 attempts (`connectionState.ts` is not
under src/; the cap is stated in the spec and the repository README). -/
def DEFAULT_RECONNECTION_CONFIG : ReconnectionConfig := ⟨true, 8⟩

/-- Modelled from the spec (§4.2): fixed backoff schedule
`[0, 500ms, 1s, 2s, 4s, 8s]`, clamped to the last value for attempts beyond
the table length (`connectionState.ts` is not under src/). -/
def calculateBackoffDelay (attempts : Nat) : Nat :=
  [0, 500, 1000, 2000, 4000, 8000].getD attempts 8000

/-- Modelled from the spec (§3 ConnectionHealth `gaps`): record the start of a
connectivity gap, most-recent-last (`connectionState.ts` is not under src/). -/
def recordConnectionGap (st : ConnState) (now : Nat) (reason : String) : ConnState :=
  { st with gaps := st.gaps ++ [⟨now, reason⟩] }

/-- connection.ts 441-452: on transport close, reset `reconnectionAttempts`
to 0 exactly when the connection had been up for at least the stability
window (`MIN_STABLE_CONNECTION_MS`, a constant of the missing
connectionState.ts, kept here as the parameter `minStableMs`). -/
def closeResetPhase (st : ConnState) (now minStableMs : Nat) : ConnState :=
  match st.lastConnectedTime with
  | some t =>
    if (minStableMs : Int) ≤ (now : Int) - (t : Int) then
      { st with reconnectionAttempts := 0 }
    else st
  | none => st

/-- connection.ts 513-540 `scheduleReconnection`: stop (status permanently
`disconnected`) once the attempt count reaches the cap; otherwise compute the
backoff delay from the pre-increment count, mark `reconnecting` and increment
the count.  Returns the scheduled delay, `none` when scheduling stopped. -/
def scheduleReconnection (st : ConnState) (config : ReconnectionConfig) :
    ConnState × Option Nat :=
  let attempts := st.reconnectionAttempts
  if attempts ≥ config.maxAttempts then
    ({ st with status := "disconnected" }, none)
  else
    ({ st with status := "reconnecting", reconnectionAttempts := attempts + 1 },
     some (calculateBackoffDelay attempts))

/-- connection.ts 433-466 `ws.on("close")` handler, health-state effects:
stability check and conditional attempt reset, gap record, transition to
`disconnected`, then reconnection scheduling when enabled. -/
def handleConnectionClose (st : ConnState) (now minStableMs : Nat)
    (config : ReconnectionConfig) : ConnState × Option Nat :=
  let st1 := closeResetPhase st now minStableMs
  let st2 := recordConnectionGap st1 now "Connection closed"
  let st3 := { st2 with status := "disconnected", lastDisconnectTime := some now }
  if config.enabled then scheduleReconnection st3 config else (st3, none)

/-! ## Connect-attempt 5s timeout (connection.ts 488-498) and settlement

The promise returned by `connectToDevice` is settled by exactly these
handlers: `ws.on("open")` resolves it; `ws.on("error")` rejects it only for
an initial (non-reconnection) attempt; `ws.on("close")` never settles it; the
5-second timer rejects it only for a non-reconnection attempt, and terminates
the transport whenever it is not yet open; the constructor catch rejects only
for a non-reconnection attempt. -/

def wsCONNECTING : Nat := 0

def wsOPEN : Nat := 1

def wsCLOSING : Nat := 2

def wsCLOSED : Nat := 3

structure TimeoutEffect where
  lockReleased : Bool
  terminated : Bool
  rejected : Bool
deriving DecidableEq

/-- connection.ts 489-498: the body of the `setTimeout(..., 5000)` callback.
`readyState` is the transport state at the moment the timer fires. -/
def connectTimeoutHandler (isReconnection : Bool) (readyState : Nat) : TimeoutEffect :=
  if readyState ≠ wsOPEN then
    { lockReleased := true, terminated := true, rejected := !isReconnection }
  else
    { lockReleased := false, terminated := false, rejected := false }

inductive ConnectEvent where
  | openEvt
  | errorEvt
  | closeEvt
  | timerFire (readyState : Nat)
  | ctorThrow
deriving DecidableEq

/-- Whether the given handler invocation settles (resolves or rejects) the
promise returned by `connectToDevice` (connection.ts 362-498). -/
def settlesConnectPromise (isReconnection : Bool) : ConnectEvent → Bool
  | .openEvt => true
  | .errorEvt => !isReconnection
  | .closeEvt => false
  | .timerFire readyState => (connectTimeoutHandler isReconnection readyState).rejected
  | .ctorThrow => !isReconnection

/-! ## JavaScript strings as UTF-16 code-unit lists (executor.ts 26-110)

The expression validator inspects UTF-16 surrogate code units (which Lean's
`Char` cannot carry), so expressions are `List Nat` of code units.  Comment
stripping loops are written with an explicit fuel argument (the loop body
always consumes at least one unit, so `length + 1` fuel is exact; the
fuel-irrelevance lemmas below discharge that). -/

/-- JS `\s`-style whitespace code units (space, tab, LF, VT, FF, CR, NBSP,
BOM) as consumed by `trimStart`/`trim`. -/
def isWsU (u : Nat) : Bool :=
  u == 32 || u == 9 || u == 10 || u == 11 || u == 12 || u == 13 ||
  u == 160 || u == 65279

/-- JS `String.prototype.trimStart`. -/
def trimStartU (l : List Nat) : List Nat := l.dropWhile isWsU

/-- JS `String.prototype.trim` (both ends). -/
def trimU (l : List Nat) : List Nat :=
  ((trimStartU l).reverse.dropWhile isWsU).reverse

/-- JS `String.prototype.startsWith`. -/
def startsWithU : List Nat → List Nat → Bool
  | [], _ => true
  | _ :: _, [] => false
  | p :: ps, c :: cs => p == c && startsWithU ps cs

/-- executor.ts 26-31 `containsProblematicUnicode`: any UTF-16 surrogate code
unit (the `[\uD800-\uDFFF]` regex test). -/
def containsProblematicUnicode (l : List Nat) : Bool :=
  l.any (fun u => 55296 ≤ u && u ≤ 57343)

/-- `result.indexOf("\n")` + `slice(i + 1)`: everything after the first LF,
`none` when there is none. -/
def afterNewlineU : List Nat → Option (List Nat)
  | [] => none
  | c :: rest => if c == 10 then some rest else afterNewlineU rest

/-- `result.indexOf("*" + "/")` + `slice(i + 2)`: everything after the first
star-slash pair, `none` when there is none. -/
def afterBlockEndU : List Nat → Option (List Nat)
  | 42 :: 47 :: rest => some rest
  | _ :: rest => afterBlockEndU rest
  | [] => none

/-- executor.ts 44-51: the `while (result.startsWith("//"))` loop. -/
def stripSlashAux : Nat → List Nat → List Nat
  | 0, l => l
  | fuel + 1, l =>
    if startsWithU [47, 47] l then
      match afterNewlineU l with
      | none => []
      | some rest => stripSlashAux fuel (trimStartU rest)
    else l

/-- executor.ts 54-61: the `while (result.startsWith("/" + "*"))` loop
(an unclosed block comment is returned as is). -/
def stripBlockAux : Nat → List Nat → List Nat
  | 0, l => l
  | fuel + 1, l =>
    if startsWithU [47, 42] l then
      match afterBlockEndU l with
      | none => l
      | some rest => stripBlockAux fuel (trimStartU rest)
    else l

/-- executor.ts 37-64 `stripLeadingComments`: trim, strip line comments, then
strip block comments. -/
def stripLeadingComments (expression : List Nat) : List Nat :=
  let r := trimStartU expression
  let r := stripSlashAux (r.length + 1) r
  stripBlockAux (r.length + 1) r

structure ExpressionValidation where
  valid : Bool
  expression : List Nat
  error : Option String
deriving DecidableEq

def UNICODE_ERROR : String :=
  "Expression contains emoji or special Unicode characters that Hermes cannot compile. Please remove emoji and use ASCII characters only."

def EMPTY_EXPRESSION_ERROR : String :=
  "Expression is empty or contains only comments."

def ASYNC_ERROR : String :=
  "Hermes does not support top-level async functions in Runtime.evaluate. Instead of \x60(async () => \x7b ... \x7d)()\x60, use a synchronous approach or execute the async code and access the result via a global variable: \x60global.__result = null; myAsyncFn().then(r => global.__result = r)\x60"

/-- `"(async"`, `"async "`, `"async("` as code-unit lists. -/
def parenAsyncU : List Nat := [40, 97, 115, 121, 110, 99]

def asyncSpaceU : List Nat := [97, 115, 121, 110, 99, 32]

def asyncParenU : List Nat := [97, 115, 121, 110, 99, 40]

/-- executor.ts 70-110 `validateAndPreprocessExpression`. -/
def validateAndPreprocessExpression (expression : List Nat) : ExpressionValidation :=
  if containsProblematicUnicode expression then
    ⟨false, expression, some UNICODE_ERROR⟩
  else
    let cleaned := stripLeadingComments expression
    if trimU cleaned = [] then
      ⟨false, expression, some EMPTY_EXPRESSION_ERROR⟩
    else
      let trimmed := trimU cleaned
      if startsWithU parenAsyncU trimmed || startsWithU asyncSpaceU trimmed ||
         startsWithU asyncParenU trimmed then
        ⟨false, cleaned, some ASYNC_ERROR⟩
      else
        ⟨true, cleaned, none⟩

/-! ## CDP frames and the message router (connection.ts 52-317)

Inbound frames are loosely-typed JSON; they are modelled as a record of
optional fields, mirroring the per-branch casts in `handleCDPMessage`.
JS truthiness on strings/numbers (empty string and zero are falsy) is made
explicit via `strTruthy`/`numTruthy`. -/

/-- A JSON value as far as the router inspects it.  Object/array renderings
(`JSON.stringify`) are carried as their rendered text. -/
inductive JsValue where
  | jsStr (s : String)
  | jsNum (n : Int)
  | jsBool (b : Bool)
  | jsNull
  | jsObj (rendered : String)
deriving DecidableEq

/-- JS `typeof v === "object"` (note `typeof null === "object"`). -/
def jsTypeofObject : JsValue → Bool
  | .jsNull => true
  | .jsObj _ => true
  | _ => false

/-- JS `String(v)` for the primitive cases the router hits. -/
def jsString : JsValue → String
  | .jsStr s => s
  | .jsNum n => toString n
  | .jsBool b => if b then "true" else "false"
  | .jsNull => "null"
  | .jsObj _ => "[object Object]"

/-- JS `JSON.stringify(v)` (indentation of the two call sites abstracted;
object/array renderings are carried verbatim in `jsObj`). -/
def jsonStringify : JsValue → String
  | .jsStr s => "\x22" ++ s ++ "\x22"
  | .jsNum n => toString n
  | .jsBool b => if b then "true" else "false"
  | .jsNull => "null"
  | .jsObj rendered => rendered

/-- JS truthiness of an optional string (absent and `""` are falsy). -/
def strTruthy : Option String → Bool
  | some s => s ≠ ""
  | none => false

/-- JS truthiness of an optional number (absent and `0` are falsy; CDP
timestamps are JS doubles, modelled as rationals). -/
def numTruthy : Option ℚ → Bool
  | some q => q ≠ 0
  | none => false

structure RemoteObject where
  type : String
  subtype : Option String
  value : Option JsValue
  description : Option String
  unserializableValue : Option String
deriving DecidableEq

/-- connection.ts 53-81 `formatRemoteObject`. -/
def formatRemoteObject (result : RemoteObject) : String :=
  if result.type = "undefined" then "undefined"
  else if result.subtype = some "null" then "null"
  else
    match result.value with
    | some v => if jsTypeofObject v then jsonStringify v else jsString v
    | none =>
      if strTruthy result.description then result.description.getD ""
      else if strTruthy result.unserializableValue then
        result.unserializableValue.getD ""
      else
        "[" ++ result.type ++
          (if strTruthy result.subtype then " " ++ result.subtype.getD "" else "")
          ++ "]"

structure ExceptionDetails where
  text : String
  exception : Option RemoteObject
deriving DecidableEq

/-- connection.ts 113-116: `exception.exception?.description || exception.text`. -/
def exceptionMessage (ed : ExceptionDetails) : String :=
  let d := ed.exception.bind (fun o => o.description)
  if strTruthy d then d.getD "" else ed.text

structure CDPError where
  message : Option String
  code : Option Int
  data : Option String
deriving DecidableEq

/-- connection.ts 93-100: compose the protocol-error message from the parts
that are present (message if truthy, code if not undefined, data if truthy),
joined by `", "`; `"Unknown CDP error"` when no part is present. -/
def composeCdpError (error : CDPError) : String :=
  let parts : List String :=
    (if strTruthy error.message then [error.message.getD ""] else []) ++
    (match error.code with
     | some c => ["code: " ++ toString c]
     | none => []) ++
    (if strTruthy error.data then ["data: " ++ error.data.getD ""] else [])
  if parts.length > 0 then String.intercalate ", " parts else "Unknown CDP error"

structure EvalResult where
  result : Option RemoteObject
  exceptionDetails : Option ExceptionDetails
deriving DecidableEq

/-- The `{success, result?, error?}` record the completion callback receives
(types.ts ExecutionResult). -/
structure ExecutionResult where
  success : Bool
  result : Option String
  error : Option String
deriving DecidableEq

structure ConsoleArg where
  type : Option String
  value : Option JsValue
  description : Option String
  previewProperties : Option (List (String × String))
deriving DecidableEq

structure LogEntryParam where
  level : Option String
  text : Option String
deriving DecidableEq

structure RequestInfo where
  url : String
  method : String
  headers : List (String × String)
  postData : Option String
deriving DecidableEq

structure ResponseInfo where
  url : String
  status : Int
  statusText : String
  headers : List (String × String)
  mimeType : Option String
deriving DecidableEq

/-- The union of all `message.params` fields the router reads (the code casts
the loosely-typed params per branch). -/
structure CDPParams where
  type : Option String
  args : Option (List ConsoleArg)
  entry : Option LogEntryParam
  requestId : Option String
  request : Option RequestInfo
  response : Option ResponseInfo
  timestamp : Option ℚ
  encodedDataLength : Option Int
  errorText : Option String
  canceled : Option Bool
  contextId : Option Nat
deriving DecidableEq

structure CDPFrame where
  id : Option Nat
  error : Option CDPError
  result : Option EvalResult
  method : Option String
  params : Option CDPParams
deriving DecidableEq

/-- Canonical log levels (types.ts LogEntry levels). -/
inductive LogLevel where
  | log | info | warn | error | debug
deriving DecidableEq

/-- Modelled from the spec (§4.2: console type, default `"log"`, mapped to a
canonical level; `logs.ts` is not under src/). -/
def mapConsoleType (t : String) : LogLevel :=
  if t = "info" then .info
  else if t = "warning" || t = "warn" then .warn
  else if t = "error" then .error
  else if t = "debug" then .debug
  else .log

structure LogEntry where
  level : LogLevel
  message : String
  args : List (Option JsValue)
deriving DecidableEq

/-- types.ts NetworkRequest (the nested `timing` record is flattened). -/
structure NetworkRequest where
  requestId : String
  method : String
  url : String
  headers : List (String × String)
  postData : Option String
  status : Option Int
  statusText : Option String
  responseHeaders : Option (List (String × String))
  mimeType : Option String
  contentLength : Option Int
  requestTime : Option ℚ
  responseTime : Option ℚ
  duration : Option Int
  completed : Bool
  error : Option String
deriving DecidableEq

/-- Insertion-ordered keyed lookup (JS `Map.get`). -/
def lookupKey : List (String × α) → String → Option α
  | [], _ => none
  | (k, v) :: rest, key => if k = key then some v else lookupKey rest key

/-- Modelled from the spec (§4.3: the Network Buffer is a keyed,
insertion-ordered circular store; `network.ts` is not under src/):
`set` replaces an existing key in place, otherwise appends, evicting the
oldest entry beyond the capacity. -/
def setKeyed (cap : Nat) (buf : List (String × α)) (key : String) (v : α) :
    List (String × α) :=
  if (lookupKey buf key).isSome then
    buf.map (fun e => if e.1 = key then (key, v) else e)
  else
    bufAdd cap buf (key, v)

structure ContextHealth where
  contextId : Option Nat
  isStale : Bool
deriving DecidableEq

/-- Modelled from the spec (§3 ContextHealth: marked healthy with the new
context id; `connectionState.ts` is not under src/). -/
def markContextHealthy (health : List (String × ContextHealth)) (key : String)
    (cid : Nat) : List (String × ContextHealth) :=
  if (lookupKey health key).isSome then
    health.map (fun e => if e.1 = key then (key, ⟨some cid, false⟩) else e)
  else
    health ++ [(key, ⟨some cid, false⟩)]

/-- Modelled from the spec (§3 ContextHealth: marked stale on context
destruction/clearing; `connectionState.ts` is not under src/). -/
def markContextStale (health : List (String × ContextHealth)) (key : String) :
    List (String × ContextHealth) :=
  health.map (fun e => if e.1 = key then (key, { e.2 with isStale := true }) else e)

/-- state.ts 7/10: the Log Buffer holds 1000 entries, the Network Buffer 500. -/
def LOG_BUFFER_CAPACITY : Nat := 1000

def NETWORK_BUFFER_CAPACITY : Nat := 500

/-- The global state the router reads and writes (state.ts), plus the list of
callback resolutions performed, to observe `pending.resolve` calls. -/
structure RouterState where
  pendingIds : List Nat
  timersCleared : List Nat
  resolutions : List (Nat × ExecutionResult)
  logBuffer : List LogEntry
  networkBuffer : List (String × NetworkRequest)
  contextHealth : List (String × ContextHealth)
deriving DecidableEq

/-- connection.ts 150-167: render one console argument. -/
def renderConsoleArg (arg : ConsoleArg) : String :=
  if arg.type = some "string" || arg.type = some "number" ||
     arg.type = some "boolean" then
    match arg.value with
    | some v => jsString v
    | none => "undefined"
  else if strTruthy arg.description then arg.description.getD ""
  else
    match arg.previewProperties with
    | some props =>
      "\x7b" ++ String.intercalate ", " (props.map (fun p => p.1 ++ ": " ++ p.2)) ++ "\x7d"
    | none =>
      match arg.value with
      | some v => jsonStringify v
      | none => "[object]"

/-- JS whitespace characters for `String.prototype.trim`. -/
def isWsChar (c : Char) : Bool :=
  c == ' ' || c == '\t' || c == '\n' || c == '\r' ||
  c == (Char.ofNat 11) || c == (Char.ofNat 12) || c == (Char.ofNat 160) ||
  c == (Char.ofNat 65279)

/-- JS truthiness of `s.trim()`: the string has a non-whitespace character. -/
def jsTrimTruthy (s : String) : Bool := s.data.any (fun c => !(isWsChar c))

/-- connection.ts 134-177: `Runtime.consoleAPICalled`. -/
def handleConsoleEvent (p : CDPParams) (s : RouterState) : RouterState :=
  let type := match p.type with
    | some t => if t ≠ "" then t else "log"
    | none => "log"
  let level := mapConsoleType type
  let args := p.args.getD []
  let messageText := String.intercalate " " (args.map renderConsoleArg)
  let entry : LogEntry := ⟨level, messageText, args.map (fun a => a.value)⟩
  if jsTrimTruthy messageText then
    { s with logBuffer := bufAdd LOG_BUFFER_CAPACITY s.logBuffer entry }
  else s

/-- connection.ts 180-197: `Log.entryAdded` (the appended entry carries no
`args`). -/
def handleLogEntryEvent (p : CDPParams) (s : RouterState) : RouterState :=
  match p.entry with
  | some entry =>
    let level := mapConsoleType
      (match entry.level with
       | some lv => if lv ≠ "" then lv else "log"
       | none => "log")
    let logEntry : LogEntry := ⟨level, entry.text.getD "", []⟩
    { s with logBuffer := bufAdd LOG_BUFFER_CAPACITY s.logBuffer logEntry }
  | none => s

/-- connection.ts 200-226: `Network.requestWillBeSent` creates a fresh record
with `completed = false` and `timing.requestTime` from the event timestamp. -/
def handleRequestWillBeSent (p : CDPParams) (s : RouterState) : RouterState :=
  match p.requestId, p.request with
  | some rid, some req =>
    let record : NetworkRequest :=
      { requestId := rid, method := req.method, url := req.url,
        headers := req.headers, postData := req.postData,
        status := none, statusText := none, responseHeaders := none,
        mimeType := none, contentLength := none,
        requestTime := p.timestamp, responseTime := none, duration := none,
        completed := false, error := none }
    { s with networkBuffer := setKeyed NETWORK_BUFFER_CAPACITY s.networkBuffer rid record }
  | _, _ => s

/-- connection.ts 229-255: `Network.responseReceived` merges status/headers/
mime type and stamps the response time when both timestamps are truthy. -/
def handleResponseReceived (p : CDPParams) (s : RouterState) : RouterState :=
  match p.requestId, p.response with
  | some rid, some resp =>
    match lookupKey s.networkBuffer rid with
    | some existing =>
      let ex := { existing with
        status := some resp.status, statusText := some resp.statusText,
        responseHeaders := some resp.headers, mimeType := resp.mimeType }
      let ex := if numTruthy p.timestamp && numTruthy ex.requestTime then
          { ex with responseTime := p.timestamp }
        else ex
      { s with networkBuffer := setKeyed NETWORK_BUFFER_CAPACITY s.networkBuffer rid ex }
    | none => s
  | _, _ => s

/-- JS `Math.round` (round half towards positive infinity). -/
def jsRound (q : ℚ) : Int := Int.floor (q + 1 / 2)

/-- connection.ts 258-276: `Network.loadingFinished` marks the record
completed, stamps the content length, and when both the event timestamp and
the stored `requestTime` are truthy stores
`Math.round((timestamp - requestTime) * 1000)` as the duration. -/
def handleLoadingFinished (p : CDPParams) (s : RouterState) : RouterState :=
  match p.requestId with
  | some rid =>
    match lookupKey s.networkBuffer rid with
    | some existing =>
      let ex := { existing with completed := true,
                                contentLength := p.encodedDataLength }
      let dur := some (jsRound ((p.timestamp.getD 0 - ex.requestTime.getD 0) * 1000))
      let ex := if numTruthy p.timestamp && numTruthy ex.requestTime then
          { ex with duration := dur }
        else ex
      { s with networkBuffer := setKeyed NETWORK_BUFFER_CAPACITY s.networkBuffer rid ex }
    | none => s
  | none => s

/-- connection.ts 279-293: `Network.loadingFailed`:
`canceled ? "Canceled" : (errorText || "Request failed")`. -/
def handleLoadingFailed (p : CDPParams) (s : RouterState) : RouterState :=
  match p.requestId with
  | some rid =>
    match lookupKey s.networkBuffer rid with
    | some existing =>
      let failMsg := if p.canceled = some true then "Canceled"
        else match p.errorText with
          | some t => if t ≠ "" then t else "Request failed"
          | none => "Request failed"
      let ex := { existing with completed := true, error := some failMsg }
      { s with networkBuffer := setKeyed NETWORK_BUFFER_CAPACITY s.networkBuffer rid ex }
    | none => s
  | none => s

/-- connection.ts 131-316, event half of `handleCDPMessage`: the sequential
per-method `if` blocks (method names are distinct, so at most one fires),
then the context-lifecycle blocks guarded by a resolved `appKey`. -/
def handleCDPEvent (m : CDPFrame) (appKey : Option String) (s : RouterState) :
    RouterState :=
  let s := if m.method = some "Runtime.consoleAPICalled" then
      (match m.params with | some p => handleConsoleEvent p s | none => s)
    else s
  let s := if m.method = some "Log.entryAdded" then
      (match m.params with | some p => handleLogEntryEvent p s | none => s)
    else s
  let s := if m.method = some "Network.requestWillBeSent" then
      (match m.params with | some p => handleRequestWillBeSent p s | none => s)
    else s
  let s := if m.method = some "Network.responseReceived" then
      (match m.params with | some p => handleResponseReceived p s | none => s)
    else s
  let s := if m.method = some "Network.loadingFinished" then
      (match m.params with | some p => handleLoadingFinished p s | none => s)
    else s
  let s := if m.method = some "Network.loadingFailed" then
      (match m.params with | some p => handleLoadingFailed p s | none => s)
    else s
  match appKey with
  | some key =>
    let s := if m.method = some "Runtime.executionContextCreated" then
        (match m.params.bind (fun p => p.contextId) with
         | some cid => { s with contextHealth := markContextHealthy s.contextHealth key cid }
         | none => s)
      else s
    let s := if m.method = some "Runtime.executionContextDestroyed" then
        { s with contextHealth := markContextStale s.contextHealth key }
      else s
    if m.method = some "Runtime.executionContextsCleared" then
      { s with contextHealth := markContextStale s.contextHealth key }
    else s
  | none => s

/-- connection.ts 84-317 `handleCDPMessage`: a frame with a numeric `id` only
resolves a matching pending request (clear timeout, delete entry, resolve)
and returns; otherwise the frame is dispatched as an event. -/
def handleCDPMessage (m : CDPFrame) (appKey : Option String) (s : RouterState) :
    RouterState :=
  match m.id with
  | some mid =>
    if mid ∈ s.pendingIds then
      let s1 := { s with timersCleared := s.timersCleared ++ [mid],
                         pendingIds := s.pendingIds.erase mid }
      match m.error with
      | some e =>
        { s1 with resolutions := s1.resolutions ++
            [(mid, ⟨false, none, some (composeCdpError e)⟩)] }
      | none =>
        match m.result with
        | some r =>
          match r.exceptionDetails with
          | some ed =>
            { s1 with resolutions := s1.resolutions ++
                [(mid, ⟨false, none, some (exceptionMessage ed)⟩)] }
          | none =>
            match r.result with
            | some ro =>
              { s1 with resolutions := s1.resolutions ++
                  [(mid, ⟨true, some (formatRemoteObject ro), none⟩)] }
            | none =>
              { s1 with resolutions := s1.resolutions ++
                  [(mid, ⟨true, some "undefined", none⟩)] }
        | none =>
          { s1 with resolutions := s1.resolutions ++
              [(mid, ⟨true, some "undefined", none⟩)] }
    else s
  | none => handleCDPEvent m appKey s

/-! ## Connected apps (connection.ts 593-605) and the executor core
(executor.ts 163-221) -/

/-- A `ConnectedApp` as far as the scanned code inspects it: the transport
`readyState`, the Metro port and the device identity. -/
structure ConnApp where
  readyState : Nat
  port : Nat
  deviceId : String
deriving DecidableEq

/-- connection.ts 594-605 `getFirstConnectedApp`: scan the insertion-ordered
`connectedApps` map; return the first entry whose WebSocket is OPEN, deleting
every non-OPEN entry encountered before it; return `null` (and delete every
scanned entry) when none is OPEN.  Result: the returned app (if any) and the
map after the scan. -/
def getFirstConnectedApp :
    List (String × ConnApp) → Option ConnApp × List (String × ConnApp)
  | [] => (none, [])
  | (key, app) :: rest =>
    if app.readyState = wsOPEN then (some app, (key, app) :: rest)
    else getFirstConnectedApp rest

/-- The immediate effect of one `executeExpressionCore` call: either an
immediately-resolved failure, or a dispatched `Runtime.evaluate` frame
carrying a fresh pending request. -/
inductive CoreOutcome where
  | immediateFailure (error : String)
  | dispatched (id : Nat)
deriving DecidableEq

def NO_APPS_ERROR : String := "No apps connected. Run \x27scan_metro\x27 first."

def WS_NOT_OPEN_ERROR : String := "WebSocket connection is not open."

/-- The executor-visible mutable state: the pending-execution ids, the ids of
dispatched request frames, and the message-id counter (state.ts). -/
structure ExecState where
  pendingIds : List Nat
  sentFrames : List Nat
  nextMessageId : Nat
deriving DecidableEq

/-- executor.ts 163-221 `executeExpressionCore` up to its dispatch decision:
no connected app / non-open transport / validation failure return immediately
with no state change; otherwise a pending request under a fresh message id is
created and the wrapped expression is dispatched. -/
def executeExpressionCore (apps : List (String × ConnApp)) (expression : List Nat)
    (st : ExecState) : CoreOutcome × ExecState :=
  match (getFirstConnectedApp apps).1 with
  | none => (.immediateFailure NO_APPS_ERROR, st)
  | some app =>
    if app.readyState ≠ wsOPEN then (.immediateFailure WS_NOT_OPEN_ERROR, st)
    else
      let validation := validateAndPreprocessExpression expression
      if validation.valid = false then
        (.immediateFailure (validation.error.getD ""), st)
      else
        let currentMessageId := st.nextMessageId
        (.dispatched currentMessageId,
         { pendingIds := st.pendingIds ++ [currentMessageId],
           sentFrames := st.sentFrames ++ [currentMessageId],
           nextMessageId := currentMessageId + 1 })

/-! ## Lemmas and claim theorems -/

theorem bufAdd_length_le (cap : Nat) (buf : List α) (e : α)
    (h : buf.length ≤ cap) : (bufAdd cap buf e).length ≤ cap := by
  simp only [bufAdd]
  by_cases hc : cap < (buf ++ [e]).length
  · rw [if_pos hc]; simp at hc ⊢; omega
  · rw [if_neg hc]; simp at hc ⊢; omega

theorem bufAddAll_eq_drop (cap : Nat) (xs : List α) :
    ∀ (buf : List α), buf.length ≤ cap →
      bufAddAll cap buf xs = (buf ++ xs).drop (buf.length + xs.length - cap) := by
  induction xs with
  | nil =>
    intro buf h
    have h0 : buf.length - cap = 0 := by omega
    simp [bufAddAll, h0]
  | cons x xs ih =>
    intro buf h
    have hstep : bufAddAll cap buf (x :: xs) = bufAddAll cap (bufAdd cap buf x) xs := by
      simp [bufAddAll, List.foldl]
    rw [hstep]
    by_cases hc : cap < (buf ++ [x]).length
    · -- buffer full: the oldest entry is evicted
      have hlen : buf.length = cap := by simp at hc; omega
      have hadd : bufAdd cap buf x = (buf ++ [x]).drop 1 := by
        simp only [bufAdd]
        rw [if_pos hc]
      have hdl : ((buf ++ [x]).drop 1).length ≤ cap := by simp; omega
      rw [hadd, ih _ hdl]
      have h1 : ((buf ++ [x]) ++ xs).drop 1 = (buf ++ [x]).drop 1 ++ xs :=
        List.drop_append_of_le_length (by simp)
      rw [← h1, List.drop_drop]
      have h2 : (buf ++ [x]) ++ xs = buf ++ (x :: xs) := by simp
      rw [h2]
      congr 1
      simp [hlen]
      omega
    · -- buffer not yet full: plain append
      have hadd : bufAdd cap buf x = buf ++ [x] := by
        simp only [bufAdd]
        rw [if_neg hc]
      simp at hc
      rw [hadd, ih _ (by simp; omega)]
      have h2 : (buf ++ [x]) ++ xs = buf ++ (x :: xs) := by simp
      rw [h2]
      congr 1
      simp
      omega

theorem pendingInv_init : PendingInv pendingInit := by
  intro id
  simp [pendingInit, invocations]

theorem count_append_single_self (l : List Nat) (j : Nat) :
    (l ++ [j]).count j = l.count j + 1 := by
  simp [List.count_append]

theorem count_append_single_ne (l : List Nat) (i j : Nat) (h : i ≠ j) :
    (l ++ [j]).count i = l.count i := by
  have : ¬ (j = i) := fun hh => h hh.symm
  simp [List.count_append, List.count_singleton, this]

theorem pendingInv_step (s : PendingState) (e : PendingEvent)
    (h : PendingInv s) : PendingInv (pendingStep s e) := by
  intro id
  obtain ⟨h1, h2, h3⟩ := h id
  cases e with
  | create j =>
    by_cases hj : j ∈ s.created
    · simpa [pendingStep, hj, invocations] using ⟨h1, h2, h3⟩
    · have hc0 : s.created.count j = 0 := List.count_eq_zero_of_not_mem hj
      have hp0 : s.pendingIds.count j = 0 := by
        have := (h j).2.2
        omega
      simp only [pendingStep, if_neg hj, invocations]
      by_cases hij : id = j
      · subst hij
        obtain ⟨_, hq2, hq3⟩ := h id
        rw [count_append_single_self, count_append_single_self,
          count_append_single_self]
        simp only [invocations] at hq3
        refine ⟨by omega, by omega, by omega⟩
      · rw [count_append_single_ne _ _ _ hij, count_append_single_ne _ _ _ hij,
          count_append_single_ne _ _ _ hij]
        exact ⟨h1, h2, h3⟩
  | reply j =>
    by_cases hj : j ∈ s.pendingIds
    · simp only [pendingStep, if_pos hj, invocations]
      simp only [invocations] at h3
      by_cases hij : id = j
      · subst hij
        have hpos : 0 < s.pendingIds.count id := List.count_pos_iff.mpr hj
        rw [List.count_erase_self, List.count_erase_self,
          count_append_single_self]
        refine ⟨h1, by omega, by omega⟩
      · rw [List.count_erase_of_ne hij, List.count_erase_of_ne hij,
          count_append_single_ne _ _ _ hij]
        exact ⟨h1, h2, h3⟩
    · simpa [pendingStep, hj, invocations] using ⟨h1, h2, h3⟩
  | timerFire j =>
    by_cases hj : j ∈ s.activeTimers
    · simp only [pendingStep, if_pos hj, invocations]
      simp only [invocations] at h3
      by_cases hij : id = j
      · subst hij
        have hpos : 0 < s.activeTimers.count id := List.count_pos_iff.mpr hj
        rw [List.count_erase_self, List.count_erase_self,
          count_append_single_self]
        refine ⟨h1, by omega, by omega⟩
      · rw [List.count_erase_of_ne hij, List.count_erase_of_ne hij,
          count_append_single_ne _ _ _ hij]
        exact ⟨h1, h2, h3⟩
    · simpa [pendingStep, hj, invocations] using ⟨h1, h2, h3⟩

theorem pendingInv_run (evs : List PendingEvent) : PendingInv (pendingRun evs) := by
  suffices h : ∀ s, PendingInv s → PendingInv (evs.foldl pendingStep s) from
    h pendingInit pendingInv_init
  induction evs with
  | nil => intro s hs; simpa using hs
  | cons e evs ih =>
    intro s hs
    exact ih _ (pendingInv_step s e hs)

/-- Claim C1: for every pending request identifier, the completion callback is
invoked at most once over any event interleaving (creation, reply, timeout —
including reply-then-late-timeout and timeout-then-late-reply), it is invoked
exactly once iff the `pendingExecutions` entry has been removed (removal and
invocation happen in the same step), and once the one-shot timeout can no
longer fire the callback has been invoked exactly once. -/
theorem pendingRequest_resolved_exactly_once (evs : List PendingEvent) (id : Nat) :
    invocations (pendingRun evs) id ≤ 1 ∧
    (id ∈ (pendingRun evs).created →
      (invocations (pendingRun evs) id = 1 ↔ id ∉ (pendingRun evs).pendingIds)) ∧
    (id ∈ (pendingRun evs).created → id ∉ (pendingRun evs).activeTimers →
      invocations (pendingRun evs) id = 1) := by
  obtain ⟨h1, h2, h3⟩ := pendingInv_run evs id
  have hcreated : id ∈ (pendingRun evs).created ↔
      0 < (pendingRun evs).created.count id := List.count_pos_iff.symm
  have hpend : id ∉ (pendingRun evs).pendingIds ↔
      (pendingRun evs).pendingIds.count id = 0 := by
    rw [List.count_eq_zero]
  have htimer : id ∉ (pendingRun evs).activeTimers ↔
      (pendingRun evs).activeTimers.count id = 0 := by
    rw [List.count_eq_zero]
  refine ⟨by omega, ?_, ?_⟩
  · intro hc
    rw [hcreated] at hc
    rw [hpend]
    omega
  · intro hc ht
    rw [hcreated] at hc
    rw [htimer] at ht
    omega

/-- Claim C1 witness: after create(1), reply(1), a late timer event and a
duplicate late reply for id 1, the callback ran exactly once. -/
theorem pendingRequest_resolved_exactly_once_witness :
    1 ∈ (pendingRun [.create 1, .reply 1, .timerFire 1, .reply 1]).created ∧
    1 ∉ (pendingRun [.create 1, .reply 1, .timerFire 1, .reply 1]).activeTimers ∧
    invocations (pendingRun [.create 1, .reply 1, .timerFire 1, .reply 1]) 1 = 1 :=
  ⟨by decide, by decide,
   (pendingRequest_resolved_exactly_once
      [.create 1, .reply 1, .timerFire 1, .reply 1] 1).2.2 (by decide) (by decide)⟩

/-- Claim C2: on transport close with a recorded `lastConnectedTime`, the
attempt counter is reset to 0 exactly when the connection lifetime reached the
stability window; an unstable drop preserves the count, which the subsequent
reconnection scheduling then increments by one (strict increase across
consecutive unstable drops), with the backoff delay computed from the
pre-increment count; scheduling stops once the count has reached the cap. -/
theorem reconnectionAttempts_reset_iff_stable
    (st : ConnState) (t now minStableMs : Nat) (config : ReconnectionConfig)
    (hlc : st.lastConnectedTime = some t) (hen : config.enabled = true) :
    (closeResetPhase st now minStableMs).reconnectionAttempts =
      (if (minStableMs : Int) ≤ (now : Int) - (t : Int) then 0
       else st.reconnectionAttempts) ∧
    ((now : Int) - (t : Int) < (minStableMs : Int) →
      st.reconnectionAttempts < config.maxAttempts →
      (handleConnectionClose st now minStableMs config).1.reconnectionAttempts =
          st.reconnectionAttempts + 1 ∧
        (handleConnectionClose st now minStableMs config).2 =
          some (calculateBackoffDelay st.reconnectionAttempts)) ∧
    ((now : Int) - (t : Int) < (minStableMs : Int) →
      st.reconnectionAttempts ≥ config.maxAttempts →
      (handleConnectionClose st now minStableMs config).2 = none ∧
        (handleConnectionClose st now minStableMs config).1.status = "disconnected") := by
  refine ⟨?_, ?_, ?_⟩
  · simp only [closeResetPhase, hlc]
    split
    · rfl
    · rfl
  · intro hunstable hcap
    have hns : ¬ ((minStableMs : Int) ≤ (now : Int) - (t : Int)) := by omega
    have hnc : ¬ (st.reconnectionAttempts ≥ config.maxAttempts) := by omega
    simp [handleConnectionClose, closeResetPhase, hlc, hns, hen,
      recordConnectionGap, scheduleReconnection, hnc]
  · intro hunstable hcap
    have hns : ¬ ((minStableMs : Int) ≤ (now : Int) - (t : Int)) := by omega
    simp [handleConnectionClose, closeResetPhase, hlc, hns, hen,
      recordConnectionGap, scheduleReconnection, hcap]

/-- Claim C2 witness: a connection up for 500ms (window 5000ms) with 3 prior
attempts keeps the count, schedules attempt 4 after the 4th backoff delay
(2000ms), and does not reset. -/
theorem reconnectionAttempts_reset_iff_stable_witness :
    (closeResetPhase ⟨"connected", some 1000, none, 3, []⟩ 1500 5000).reconnectionAttempts = 3 ∧
    (handleConnectionClose ⟨"connected", some 1000, none, 3, []⟩ 1500 5000
        DEFAULT_RECONNECTION_CONFIG).1.reconnectionAttempts = 4 ∧
    (handleConnectionClose ⟨"connected", some 1000, none, 3, []⟩ 1500 5000
        DEFAULT_RECONNECTION_CONFIG).2 = some 2000 := by
  have h := reconnectionAttempts_reset_iff_stable
    ⟨"connected", some 1000, none, 3, []⟩ 1000 1500 5000
    DEFAULT_RECONNECTION_CONFIG rfl rfl
  obtain ⟨h1, h2, _⟩ := h
  obtain ⟨h2a, h2b⟩ := h2 (by decide) (by decide)
  refine ⟨?_, h2a, ?_⟩
  · rw [h1]; decide
  · rw [h2b]; decide

/-- Claim C3: a circular buffer of capacity `cap`, fed any sequence of adds
from empty, holds exactly `min cap total` entries, and they are exactly the
most recent `min cap total` additions in insertion order (the buffer is the
order-preserving suffix of the add sequence); in particular the size never
exceeds the capacity. -/
theorem circularBuffer_holds_most_recent {α : Type} (cap : Nat) (xs : List α) :
    (bufAddAll cap [] xs).length = min cap xs.length ∧
    bufAddAll cap [] xs = xs.drop (xs.length - cap) := by
  have h := bufAddAll_eq_drop cap xs [] (by simp)
  simp only [List.nil_append, List.length_nil, Nat.zero_add] at h
  refine ⟨?_, h⟩
  rw [h, List.length_drop]
  omega

/-- Claim C4 counterexample: for a reconnection attempt whose transport is
still CONNECTING when the 5s timer fires, the timer terminates the transport
but does not reject the promise, and neither the error nor the close handler
settles it either — so the returned promise remains pending, contradicting
"the attempt is failed … for every attempt, whether or not it is a
reconnection attempt". -/
theorem connectTimeout_reconnection_left_pending :
    (connectTimeoutHandler true wsCONNECTING).terminated = true ∧
    (connectTimeoutHandler true wsCONNECTING).rejected = false ∧
    settlesConnectPromise true (.timerFire wsCONNECTING) = false ∧
    settlesConnectPromise true .errorEvt = false ∧
    settlesConnectPromise true .closeEvt = false := by decide

/-- Claim C4 amended: when the 5s connect timer fires with the transport not
yet open, the half-open transport is forcibly terminated for every attempt,
and the returned promise is rejected (the attempt failed) exactly for
non-reconnection attempts; a reconnection attempt's promise is not settled by
the timeout handler. -/
theorem connectTimeout_settles_initial_attempts (isReconnection : Bool)
    (readyState : Nat) (h : readyState ≠ wsOPEN) :
    (connectTimeoutHandler isReconnection readyState).terminated = true ∧
    (connectTimeoutHandler false readyState).rejected = true ∧
    (connectTimeoutHandler true readyState).rejected = false := by
  simp [connectTimeoutHandler, h]

/-- Claim C4 amended witness: timer firing at CONNECTING. -/
theorem connectTimeout_settles_initial_attempts_witness :
    (connectTimeoutHandler false wsCONNECTING).terminated = true ∧
    (connectTimeoutHandler false wsCONNECTING).rejected = true ∧
    (connectTimeoutHandler true wsCONNECTING).rejected = false :=
  ⟨(connectTimeout_settles_initial_attempts false wsCONNECTING (by decide)).1,
   (connectTimeout_settles_initial_attempts false wsCONNECTING (by decide)).2.1,
   (connectTimeout_settles_initial_attempts false wsCONNECTING (by decide)).2.2⟩

theorem lookupKey_setKeyed_present (cap : Nat) (buf : List (String × α))
    (key : String) (v : α) (h : (lookupKey buf key).isSome = true) :
    lookupKey (setKeyed cap buf key v) key = some v := by
  have hmap : ∀ (b : List (String × α)), (lookupKey b key).isSome = true →
      lookupKey (b.map (fun e => if e.1 = key then (key, v) else e)) key = some v := by
    intro b
    induction b with
    | nil => intro hb; simp [lookupKey] at hb
    | cons hd tl ih =>
      obtain ⟨k1, v1⟩ := hd
      intro hb
      by_cases hk : k1 = key
      · subst hk
        have hf : List.map (fun e => if e.1 = k1 then (k1, v) else e) ((k1, v1) :: tl)
            = (k1, v) :: List.map (fun e => if e.1 = k1 then (k1, v) else e) tl := by
          simp
        rw [hf]
        simp [lookupKey]
      · have hf : List.map (fun e => if e.1 = key then (key, v) else e) ((k1, v1) :: tl)
            = (k1, v1) :: List.map (fun e => if e.1 = key then (key, v) else e) tl := by
          simp [hk]
        rw [hf]
        simp only [lookupKey, if_neg hk] at hb ⊢
        exact ih hb
  simp only [setKeyed, h, if_pos]
  exact hmap buf h

/-- Claim C5: a reply frame matching a pending request whose result carries an
exception descriptor resolves the request as a failure whose message is the
exception object's description when present (and non-empty, per JS
truthiness), else the descriptor's `text`. -/
theorem reply_exception_resolution
    (m : CDPFrame) (mid : Nat) (r : EvalResult) (ed : ExceptionDetails)
    (appKey : Option String) (s : RouterState)
    (hid : m.id = some mid) (hpend : mid ∈ s.pendingIds)
    (herr : m.error = none) (hres : m.result = some r)
    (hed : r.exceptionDetails = some ed) :
    (handleCDPMessage m appKey s).resolutions =
      s.resolutions ++ [(mid, ⟨false, none, some (exceptionMessage ed)⟩)] ∧
    (∀ d, ed.exception.bind (fun o => o.description) = some d → d ≠ "" →
      exceptionMessage ed = d) ∧
    (ed.exception.bind (fun o => o.description) = none →
      exceptionMessage ed = ed.text) := by
  refine ⟨?_, ?_, ?_⟩
  · simp [handleCDPMessage, hid, hpend, herr, hres, hed]
  · intro d hd hne
    simp [exceptionMessage, hd, strTruthy, hne]
  · intro hd
    simp [exceptionMessage, hd, strTruthy]

/-- Claim C5 witness: reply for pending id 5 with
`result.exceptionDetails.text = "X"` and no description resolves id 5 as a
failure with message `"X"`. -/
theorem reply_exception_resolution_witness :
    (handleCDPMessage ⟨some 5, none, some ⟨none, some ⟨"X", none⟩⟩, none, none⟩
        none ⟨[5], [], [], [], [], []⟩).resolutions =
      [(5, ⟨false, none, some "X"⟩)] := by
  have h := reply_exception_resolution
    ⟨some 5, none, some ⟨none, some ⟨"X", none⟩⟩, none, none⟩ 5
    ⟨none, some ⟨"X", none⟩⟩ ⟨"X", none⟩ none ⟨[5], [], [], [], [], []⟩
    rfl (by decide) rfl rfl rfl
  rw [h.1, h.2.2 rfl]
  decide

/-- Claim C8: a reply frame carrying a protocol-level error that matches a
pending request resolves it as a failure whose message is composed from the
error's description (`message`, when truthy), numeric `code` (when present)
and auxiliary `data` (when truthy), joined in that order; with none of the
three present the message is the generic `"Unknown CDP error"`. -/
theorem reply_protocol_error_message
    (m : CDPFrame) (mid : Nat) (e : CDPError)
    (appKey : Option String) (s : RouterState)
    (hid : m.id = some mid) (hpend : mid ∈ s.pendingIds)
    (herr : m.error = some e) :
    (handleCDPMessage m appKey s).resolutions =
      s.resolutions ++ [(mid, ⟨false, none, some (composeCdpError e)⟩)] ∧
    ((e.message = none ∨ e.message = some "") → e.code = none →
      (e.data = none ∨ e.data = some "") →
      composeCdpError e = "Unknown CDP error") ∧
    (∀ msg c d, e.message = some msg → msg ≠ "" → e.code = some c →
      e.data = some d → d ≠ "" →
      composeCdpError e =
        String.intercalate ", " [msg, "code: " ++ toString c, "data: " ++ d]) := by
  refine ⟨?_, ?_, ?_⟩
  · simp [handleCDPMessage, hid, hpend, herr]
  · intro hmsg hc hd
    rcases hmsg with hmsg | hmsg <;> rcases hd with hd | hd <;>
      simp [composeCdpError, strTruthy, hmsg, hc, hd]
  · intro msg c d hmsg hmne hc hd hdne
    simp [composeCdpError, strTruthy, hmsg, hmne, hc, hd, hdne]

/-- Claim C8 witness: all three parts present compose in order; all three
absent give the generic message. -/
theorem reply_protocol_error_message_witness :
    (handleCDPMessage ⟨some 7, some ⟨some "boom", some (-32000), some "aux"⟩,
        none, none, none⟩ none ⟨[7], [], [], [], [], []⟩).resolutions =
      [(7, ⟨false, none, some "boom, code: -32000, data: aux"⟩)] ∧
    composeCdpError ⟨none, none, none⟩ = "Unknown CDP error" := by
  have h := reply_protocol_error_message
    ⟨some 7, some ⟨some "boom", some (-32000), some "aux"⟩, none, none, none⟩ 7
    ⟨some "boom", some (-32000), some "aux"⟩ none ⟨[7], [], [], [], [], []⟩
    rfl (by decide) rfl
  refine ⟨?_, by decide⟩
  rw [h.1, h.2.2 "boom" (-32000) "aux" rfl (by decide) rfl rfl (by decide)]
  decide

/-- Claim C9: a frame whose `id` is a number only performs reply resolution
and returns: the log buffer, the network buffer and the context health map
are unchanged, even when the frame also carries a `method` naming a known
event. -/
theorem numeric_id_frame_reply_only (m : CDPFrame) (mid : Nat)
    (appKey : Option String) (s : RouterState) (hid : m.id = some mid) :
    (handleCDPMessage m appKey s).logBuffer = s.logBuffer ∧
    (handleCDPMessage m appKey s).networkBuffer = s.networkBuffer ∧
    (handleCDPMessage m appKey s).contextHealth = s.contextHealth := by
  obtain ⟨mid0, merr, mres, mmeth, mparams⟩ := m
  simp only [CDPFrame.id] at hid
  subst hid
  simp only [handleCDPMessage]
  by_cases hpend : mid ∈ s.pendingIds
  · simp only [if_pos hpend]
    rcases merr with _ | e
    · rcases mres with _ | ⟨ro, ed⟩
      · simp
      · rcases ed with _ | ed <;> rcases ro with _ | ro <;> simp
    · simp
  · simp [hpend]

/-- Claim C9 witness: a frame with numeric id 1 that also carries
`Runtime.consoleAPICalled` with a non-blank console argument leaves the log
buffer untouched — while the same frame without the id would append. -/
theorem numeric_id_frame_reply_only_witness :
    (handleCDPMessage
        ⟨some 1, none, none, some "Runtime.consoleAPICalled",
         some ⟨some "log", some [⟨some "string", some (.jsStr "hi"), none, none⟩],
           none, none, none, none, none, none, none, none, none⟩⟩
        (some "8081-dev") ⟨[1], [], [], [], [], []⟩).logBuffer = [] ∧
    (handleCDPMessage
        ⟨none, none, none, some "Runtime.consoleAPICalled",
         some ⟨some "log", some [⟨some "string", some (.jsStr "hi"), none, none⟩],
           none, none, none, none, none, none, none, none, none⟩⟩
        (some "8081-dev") ⟨[1], [], [], [], [], []⟩).logBuffer =
      [⟨.log, "hi", [some (.jsStr "hi")]⟩] := by
  refine ⟨?_, by decide⟩
  have h := numeric_id_frame_reply_only
    ⟨some 1, none, none, some "Runtime.consoleAPICalled",
     some ⟨some "log", some [⟨some "string", some (.jsStr "hi"), none, none⟩],
       none, none, none, none, none, none, none, none, none⟩⟩ 1
    (some "8081-dev") ⟨[1], [], [], [], [], []⟩ rfl
  rw [h.1]

/-- Claim C7: a `Network.loadingFinished` event for a known request id whose
record has a (truthy) `requestTime` and whose event carries a (truthy) finish
timestamp marks the record completed, stamps the content length, and stores
`Math.round((timestamp - requestTime) * 1000)` as the duration. -/
theorem loadingFinished_duration
    (m : CDPFrame) (p : CDPParams) (rid : String) (ex : NetworkRequest)
    (appKey : Option String) (s : RouterState) (ts rt : ℚ)
    (hid : m.id = none) (hm : m.method = some "Network.loadingFinished")
    (hp : m.params = some p) (hrid : p.requestId = some rid)
    (hex : lookupKey s.networkBuffer rid = some ex)
    (hts : p.timestamp = some ts) (hrt : ex.requestTime = some rt)
    (hts0 : ts ≠ 0) (hrt0 : rt ≠ 0) :
    lookupKey (handleCDPMessage m appKey s).networkBuffer rid =
      some { ex with completed := true, contentLength := p.encodedDataLength,
                     duration := some (jsRound ((ts - rt) * 1000)) } := by
  obtain ⟨mid0, merr, mres, mmeth, mparams⟩ := m
  simp only [CDPFrame.id] at hid
  simp only [CDPFrame.method] at hm
  simp only [CDPFrame.params] at hp
  subst hid
  subst hm
  subst hp
  have hfin : handleLoadingFinished p s =
      { s with networkBuffer :=
          (setKeyed NETWORK_BUFFER_CAPACITY s.networkBuffer rid
            ({ ex with completed := true, contentLength := p.encodedDataLength,
                       duration := some (jsRound ((ts - rt) * 1000)) })) } := by
    simp only [handleLoadingFinished, hrid, hex, hts, hrt]
    have htr : numTruthy (some ts) = true := by simp [numTruthy, hts0]
    have hrr : numTruthy (some rt) = true := by simp [numTruthy, hrt0]
    simp [htr, hrr]
  have hlook : lookupKey (handleLoadingFinished p s).networkBuffer rid =
      some { ex with completed := true, contentLength := p.encodedDataLength,
                     duration := some (jsRound ((ts - rt) * 1000)) } := by
    rw [hfin]
    exact lookupKey_setKeyed_present _ _ _ _ (by rw [hex]; rfl)
  have hev : handleCDPEvent
      ⟨none, merr, mres, some "Network.loadingFinished", some p⟩ appKey s =
      handleLoadingFinished p s := by
    cases appKey with
    | none => simp [handleCDPEvent]
    | some key => simp [handleCDPEvent]
  have hmsg : handleCDPMessage
      ⟨none, merr, mres, some "Network.loadingFinished", some p⟩ appKey s =
      handleCDPEvent
        ⟨none, merr, mres, some "Network.loadingFinished", some p⟩ appKey s := rfl
  rw [hmsg, hev]
  exact hlook

/-- Claim C7 witness: `requestTime = 10.0`, finish `timestamp = 10.25` store a
duration of 250ms and mark the record completed. -/
theorem loadingFinished_duration_witness :
    (lookupKey (handleCDPMessage
        ⟨none, none, none, some "Network.loadingFinished",
         some ⟨none, none, none, some "req1", none, none, some (41 / 4), some 100,
           none, none, none⟩⟩
        none
        ⟨[], [], [], [],
         [("req1", ⟨"req1", "GET", "http://x", [], none, none, none, none, none,
             none, some 10, none, none, false, none⟩)], []⟩).networkBuffer
      "req1").map (fun r => (r.completed, r.duration, r.contentLength)) =
    some (true, some 250, some 100) := by
  have h := loadingFinished_duration
    ⟨none, none, none, some "Network.loadingFinished",
     some ⟨none, none, none, some "req1", none, none, some (41 / 4), some 100,
       none, none, none⟩⟩
    ⟨none, none, none, some "req1", none, none, some (41 / 4), some 100,
     none, none, none⟩
    "req1"
    ⟨"req1", "GET", "http://x", [], none, none, none, none, none,
     none, some 10, none, none, false, none⟩
    none
    ⟨[], [], [], [],
     [("req1", ⟨"req1", "GET", "http://x", [], none, none, none, none, none,
         none, some 10, none, none, false, none⟩)], []⟩
    (41 / 4) 10 rfl rfl rfl rfl rfl rfl rfl (by norm_num) (by norm_num)
  rw [h]
  norm_num [jsRound]

theorem getFirstConnectedApp_fst_open (l : List (String × ConnApp)) (a : ConnApp)
    (h : (getFirstConnectedApp l).1 = some a) : a.readyState = wsOPEN := by
  induction l with
  | nil => simp [getFirstConnectedApp] at h
  | cons hd tl ih =>
    obtain ⟨k, app⟩ := hd
    by_cases ho : app.readyState = wsOPEN
    · simp only [getFirstConnectedApp, if_pos ho] at h
      simp at h
      rw [← h]
      exact ho
    · simp only [getFirstConnectedApp, if_neg ho] at h
      exact ih h

/-- Claim C10: `getFirstConnectedApp` returns only connections whose
transport is OPEN; the map after the scan is the original one with exactly
the leading run of non-OPEN entries removed (every stale entry encountered
before the first open one is deleted); when no entry is OPEN it returns
`null` and the map is left empty. -/
theorem getFirstConnectedApp_cleans_stale (l : List (String × ConnApp))
    (res : Option ConnApp) (m' : List (String × ConnApp))
    (h : getFirstConnectedApp l = (res, m')) :
    res = ((l.find? (fun e => e.2.readyState == wsOPEN)).map (fun e => e.2)) ∧
    m' = l.dropWhile (fun e => !(e.2.readyState == wsOPEN)) ∧
    (∀ a, res = some a → a.readyState = wsOPEN) ∧
    (res = none → m' = [] ∧ ∀ e ∈ l, e.2.readyState ≠ wsOPEN) := by
  induction l generalizing res m' with
  | nil =>
    simp only [getFirstConnectedApp, Prod.mk.injEq] at h
    obtain ⟨h1, h2⟩ := h
    subst h1
    subst h2
    simp
  | cons hd tl ih =>
    obtain ⟨k, app⟩ := hd
    by_cases ho : app.readyState = wsOPEN
    · simp only [getFirstConnectedApp, if_pos ho, Prod.mk.injEq] at h
      obtain ⟨h1, h2⟩ := h
      subst h1
      subst h2
      refine ⟨by simp [List.find?, ho], by simp [List.dropWhile, ho], ?_, ?_⟩
      · intro a ha
        rw [Option.some_inj] at ha
        rw [← ha]
        exact ho
      · intro hn
        exact absurd hn (by simp)
    · simp only [getFirstConnectedApp, if_neg ho] at h
      obtain ⟨f1, f2, f3, f4⟩ := ih res m' h
      have hbeq : (app.readyState == wsOPEN) = false := by
        simp [ho]
      refine ⟨?_, ?_, f3, ?_⟩
      · rw [f1]
        simp [List.find?, hbeq]
      · rw [f2]
        simp [List.dropWhile, hbeq]
      · intro hn
        obtain ⟨g1, g2⟩ := f4 hn
        refine ⟨g1, ?_⟩
        intro e he
        rcases List.mem_cons.mp he with rfl | he
        · exact ho
        · exact g2 e he

/-- Claim C10 witness: a map whose entries are a CLOSED connection, then an
OPEN one, then another CLOSED one: the first stale entry is dropped, the open
one is returned, everything from it onward is kept; and on an all-stale map
the result is `null` with an emptied map. -/
theorem getFirstConnectedApp_cleans_stale_witness :
    (some ⟨wsOPEN, 8081, "b"⟩ :
        Option ConnApp) = (([(("a" : String), (⟨wsCLOSED, 8081, "a"⟩ : ConnApp)),
        ("b", ⟨wsOPEN, 8081, "b"⟩), ("c", ⟨wsCLOSED, 8081, "c"⟩)].find?
          (fun e => e.2.readyState == wsOPEN)).map (fun e => e.2)) ∧
    (getFirstConnectedApp [(("a" : String), (⟨wsCLOSED, 8081, "a"⟩ : ConnApp)),
        ("b", ⟨wsOPEN, 8081, "b"⟩), ("c", ⟨wsCLOSED, 8081, "c"⟩)]).2 =
      [("b", ⟨wsOPEN, 8081, "b"⟩), ("c", ⟨wsCLOSED, 8081, "c"⟩)] ∧
    (getFirstConnectedApp [(("a" : String), (⟨wsCLOSED, 8081, "a"⟩ : ConnApp))]).1
        = none ∧
    (getFirstConnectedApp [(("a" : String), (⟨wsCLOSED, 8081, "a"⟩ : ConnApp))]).2
        = [] := by
  have h1 := getFirstConnectedApp_cleans_stale
    [(("a" : String), (⟨wsCLOSED, 8081, "a"⟩ : ConnApp)),
     ("b", ⟨wsOPEN, 8081, "b"⟩), ("c", ⟨wsCLOSED, 8081, "c"⟩)]
    (some ⟨wsOPEN, 8081, "b"⟩)
    [("b", ⟨wsOPEN, 8081, "b"⟩), ("c", ⟨wsCLOSED, 8081, "c"⟩)] (by decide)
  have h2 := getFirstConnectedApp_cleans_stale
    [(("a" : String), (⟨wsCLOSED, 8081, "a"⟩ : ConnApp))] none [] (by decide)
  refine ⟨h1.1, by decide, by decide, (h2.2.2.2 rfl).1⟩

theorem startsWithU_ne_nil (p l : List Nat) (hp : p ≠ [])
    (h : startsWithU p l = true) : l ≠ [] := by
  cases p with
  | nil => exact absurd rfl hp
  | cons u p =>
    cases l with
    | nil => simp [startsWithU] at h
    | cons c cs => simp

/-- Claim C6: when a connected app with an open transport exists, an
expression without surrogate code units whose effective body (after comment
stripping and trimming) begins with an async-function marker is rejected by
`executeExpressionCore` with the validation failure suggesting the
synchronous-callback workaround, and the executor state is unchanged: no
pending request is created and no request frame is dispatched. -/
theorem evaluate_rejects_async_expression
    (apps : List (String × ConnApp)) (expression : List Nat) (st : ExecState)
    (happ : (getFirstConnectedApp apps).1.isSome = true)
    (hu : containsProblematicUnicode expression = false)
    (hasync : startsWithU parenAsyncU (trimU (stripLeadingComments expression)) = true
      ∨ startsWithU asyncSpaceU (trimU (stripLeadingComments expression)) = true
      ∨ startsWithU asyncParenU (trimU (stripLeadingComments expression)) = true) :
    executeExpressionCore apps expression st =
      (.immediateFailure ASYNC_ERROR, st) := by
  obtain ⟨a, ha⟩ := Option.isSome_iff_exists.mp happ
  have hopen := getFirstConnectedApp_fst_open apps a ha
  have hnonempty : trimU (stripLeadingComments expression) ≠ [] := by
    rcases hasync with h | h | h
    · exact startsWithU_ne_nil parenAsyncU _ (by decide) h
    · exact startsWithU_ne_nil asyncSpaceU _ (by decide) h
    · exact startsWithU_ne_nil asyncParenU _ (by decide) h
  have hcond : (startsWithU parenAsyncU (trimU (stripLeadingComments expression)) ||
      startsWithU asyncSpaceU (trimU (stripLeadingComments expression)) ||
      startsWithU asyncParenU (trimU (stripLeadingComments expression))) = true := by
    rcases hasync with h | h | h <;> simp [h]
  have hval : validateAndPreprocessExpression expression =
      ⟨false, stripLeadingComments expression, some ASYNC_ERROR⟩ := by
    simp only [validateAndPreprocessExpression, hu, Bool.false_eq_true, if_false,
      if_neg hnonempty, hcond, if_true]
  simp only [executeExpressionCore, ha, hval]
  simp [hopen]

/-- Claim C6 witness: with one OPEN app, the expression `"async (1)"` (code
units) is rejected with the async validation message and the executor state
(pending requests, sent frames, id counter) is unchanged. -/
theorem evaluate_rejects_async_expression_witness :
    executeExpressionCore [(("8081-dev" : String), (⟨wsOPEN, 8081, "dev"⟩ : ConnApp))]
        [97, 115, 121, 110, 99, 32, 40, 49, 41] ⟨[], [], 1⟩ =
      (.immediateFailure ASYNC_ERROR, ⟨[], [], 1⟩) :=
  evaluate_rejects_async_expression
    [(("8081-dev" : String), (⟨wsOPEN, 8081, "dev"⟩ : ConnApp))]
    [97, 115, 121, 110, 99, 32, 40, 49, 41] ⟨[], [], 1⟩
    (by decide) (by decide) (Or.inr (Or.inl (by decide)))
